import Mathlib

/-!
Verification of the EntropyShield forensic-pipeline specification.

The backend orchestrator and scoring engine are embedded from the design
specification (the repository ships only the frontend sources, deploy
scripts and the architecture document); the frontend API client, the
upload guard and the audit log are embedded directly from the TypeScript
sources under `src/frontend`.
-/

namespace EntropyShield

/-! ## Scoring engine data model -/

/-- Modelled from the spec: a Finding is a typed, named signal produced by
one completed Task; each Finding kind carries a fixed severity weight and
an individual significance threshold, and visual Findings may carry a
spatial region (original image pixel grid). The scoring-engine source
(`scoring_engine.py`) is not in the repository snapshot. -/
structure Finding where
  kind : String
  value : ℚ
  threshold : ℚ
  weight : ℕ
  region : Option (ℕ × ℕ × ℕ × ℕ)
  deriving Repr, DecidableEq

/-- Modelled from the spec: a Finding is significant when its value crosses
its individual significance threshold. -/
def Finding.crosses (f : Finding) : Bool := f.threshold ≤ f.value

/-- Modelled from the spec: the accumulated set of all Findings across a
TaskGraph, plus any narrative text from the Semantic Reasoner (`none` when
the reasoning service was unavailable). -/
structure ForensicReport where
  findings : List Finding
  narrative : Option String
  deriving Repr, DecidableEq

/-- Categorical label of a Verdict. -/
inductive Label where
  | Authentic
  | Suspicious
  | Tampered
  deriving Repr, DecidableEq

/-- Modelled from the spec: an Evidence item references the Finding that
contributed and carries the optional spatial region of visual findings,
passed through unmodified. -/
structure Evidence where
  finding : Finding
  region : Option (ℕ × ℕ × ℕ × ℕ)
  deriving Repr, DecidableEq

/-- Modelled from the spec: the derived, immutable result of scoring:
numeric score, categorical label, ordered Evidence list and the advisory
narrative text. -/
structure Verdict where
  score : ℕ
  label : Label
  evidence : List Evidence
  narrative : String
  deriving Repr, DecidableEq

/-- Modelled from the spec: the running sum of severity weights of the
Findings whose value crosses their significance threshold. -/
def rawPenalty : List Finding → ℕ
  | [] => 0
  | f :: fs => (if f.crosses then f.weight else 0) + rawPenalty fs

/-- Modelled from the spec: the aggregate penalty is the sum of weights of
all Findings whose value crosses their individual significance threshold,
capped at 100. -/
def aggregatePenalty (fs : List Finding) : ℕ := min (rawPenalty fs) 100

/-- Modelled from the spec: Score = 100 − aggregate penalty, floored at 0
(natural subtraction realises the floor). -/
def scoreValue (fs : List Finding) : ℕ := 100 - aggregatePenalty fs

/-- Modelled from the spec: label thresholds — score ≥ 80 → Authentic;
40 ≤ score < 80 → Suspicious; score < 40 → Tampered; boundaries inclusive
on the lower end of each band. -/
def labelOf (s : ℕ) : Label :=
  if 80 ≤ s then .Authentic else if 40 ≤ s then .Suspicious else .Tampered

/-- Modelled from the spec: for each Finding that crossed its threshold an
Evidence entry is created referencing it, in the order the Findings were
accumulated, with the visual region passed through unmodified. -/
def evidenceOf (fs : List Finding) : List Evidence :=
  (fs.filter (fun f => f.crosses)).map (fun f => ⟨f, f.region⟩)

/-- Modelled from the spec: the Scoring Engine — a pure function folding
all Findings into one deterministic numeric score, categorical label and
Evidence list; the narrative is attached as explanatory text only. -/
def score (r : ForensicReport) : Verdict :=
  { score := scoreValue r.findings
    label := labelOf (scoreValue r.findings)
    evidence := evidenceOf r.findings
    narrative := r.narrative.getD "" }

/-! ## Basic scoring lemmas -/

theorem rawPenalty_eq_sum (fs : List Finding) :
    rawPenalty fs = ((fs.filter (fun f => f.crosses)).map Finding.weight).sum := by
  induction fs with
  | nil => rfl
  | cons f fs ih =>
      by_cases h : f.crosses
      · simp [rawPenalty, List.filter_cons, h, ih]
      · simp [rawPenalty, List.filter_cons, h, ih]

theorem aggregatePenalty_le (fs : List Finding) : aggregatePenalty fs ≤ 100 :=
  min_le_right _ _

theorem scoreValue_le (fs : List Finding) : scoreValue fs ≤ 100 :=
  Nat.sub_le _ _

/-- C1: the aggregate penalty is the capped sum of the weights of exactly the
threshold-crossing Findings, the numeric score is 100 minus that penalty
(floored at 0 by natural subtraction), and the score always lies in [0,100]. -/
theorem score_eq_capped_weight_sum (r : ForensicReport) :
    (score r).score
      = 100 - min (((r.findings.filter (fun f => f.crosses)).map Finding.weight).sum) 100
    ∧ (score r).score ≤ 100 := by
  constructor
  · simp [score, scoreValue, aggregatePenalty, rawPenalty_eq_sum]
  · exact scoreValue_le r.findings

theorem labelOf_spec (s : ℕ) :
    (labelOf s = .Authentic ↔ 80 ≤ s)
    ∧ (labelOf s = .Suspicious ↔ 40 ≤ s ∧ s < 80)
    ∧ (labelOf s = .Tampered ↔ s < 40) := by
  unfold labelOf
  by_cases h80 : 80 ≤ s
  · simp [h80]; omega
  · by_cases h40 : 40 ≤ s
    · simp [h80, h40]; omega
    · simp [h80, h40]; omega

/-- C2: the categorical label of every Verdict is a function of the numeric
score alone, with Authentic iff score ≥ 80, Suspicious iff 40 ≤ score < 80,
and Tampered iff score < 40 (bands inclusive at their lower bound). -/
theorem verdict_label_bands (r : ForensicReport) :
    ((score r).label = .Authentic ↔ 80 ≤ (score r).score)
    ∧ ((score r).label = .Suspicious ↔ 40 ≤ (score r).score ∧ (score r).score < 80)
    ∧ ((score r).label = .Tampered ↔ (score r).score < 40) := by
  have h := labelOf_spec (scoreValue r.findings)
  simpa [score] using h

/-- C3: the Scoring Engine is pure and deterministic — two invocations on
identical Finding sets (and identical narrative input) yield bit-identical
Verdicts: same numeric score, same label, same ordered Evidence list. -/
theorem score_deterministic (r₁ r₂ : ForensicReport)
    (hf : r₁.findings = r₂.findings) (hn : r₁.narrative = r₂.narrative) :
    score r₁ = score r₂ := by
  cases r₁; cases r₂
  cases hf; cases hn
  rfl

theorem score_deterministic_witness :
    score ⟨[⟨"incremental-update-detected", 1, 1, 30, none⟩], some "n"⟩
      = score ⟨[⟨"incremental-update-detected", 1, 1, 30, none⟩], some "n"⟩ :=
  score_deterministic _ _ rfl rfl

theorem rawPenalty_cons_le (f : Finding) (fs : List Finding) :
    rawPenalty fs ≤ rawPenalty (f :: fs) := by
  simp [rawPenalty]

/-- C4: monotonicity — adding a Finding whose value crosses its significance
threshold never increases the numeric score of the resulting Verdict. -/
theorem score_antitone_in_findings (r : ForensicReport) (f : Finding)
    (_ : f.crosses = true) :
    (score { r with findings := f :: r.findings }).score ≤ (score r).score := by
  have hp : aggregatePenalty r.findings ≤ aggregatePenalty (f :: r.findings) :=
    min_le_min (rawPenalty_cons_le f r.findings) le_rfl
  simpa [score, scoreValue] using Nat.sub_le_sub_left hp 100

theorem score_antitone_in_findings_witness :
    (⟨"noise-variance-score", 62, 50, 15, none⟩ : Finding).crosses = true
    ∧ (score { findings := [⟨"noise-variance-score", 62, 50, 15, none⟩],
                narrative := none }).score
        ≤ (score { findings := [], narrative := none }).score :=
  ⟨by norm_num [Finding.crosses],
    score_antitone_in_findings ⟨[], none⟩
      ⟨"noise-variance-score", 62, 50, 15, none⟩ (by norm_num [Finding.crosses])⟩

/-! ## Reasoner degradation -/

/-- Modelled from the spec: the Finding of kind "reasoning-unavailable"
recorded when the Semantic Reasoner degrades gracefully; it is advisory
(zero severity weight, below its significance threshold) so it cannot move
the numeric score. -/
def reasoningUnavailableFinding : Finding :=
  { kind := "reasoning-unavailable", value := 0, threshold := 1, weight := 0, region := none }

/-- Modelled from the spec: finalization of a ForensicReport — when the
Semantic Reasoner returned a narrative it is attached; when the reasoning
service was unavailable the narrative is left empty and a
"reasoning-unavailable" Finding is recorded. -/
def finalizeReport (fs : List Finding) : Option String → ForensicReport
  | some n => { findings := fs, narrative := some n }
  | none => { findings := fs ++ [reasoningUnavailableFinding], narrative := none }

theorem rawPenalty_append (fs gs : List Finding) :
    rawPenalty (fs ++ gs) = rawPenalty fs + rawPenalty gs := by
  induction fs with
  | nil => simp [rawPenalty]
  | cons f fs ih => simp [rawPenalty, ih]; ring

/-- C5: the Semantic Reasoner's narrative never influences the numeric score
or the label — a run with the reasoner unavailable yields the same score and
label as a run with it available, with an empty narrative field and a
"reasoning-unavailable" Finding recorded. -/
theorem reasoner_unavailable_degrades_gracefully (fs : List Finding) (n : String) :
    (score (finalizeReport fs none)).score = (score (finalizeReport fs (some n))).score
    ∧ (score (finalizeReport fs none)).label = (score (finalizeReport fs (some n))).label
    ∧ (score (finalizeReport fs none)).narrative = ""
    ∧ reasoningUnavailableFinding ∈ (finalizeReport fs none).findings := by
  have hcross : reasoningUnavailableFinding.crosses = false := by decide
  have hpen : rawPenalty (fs ++ [reasoningUnavailableFinding]) = rawPenalty fs := by
    simp [rawPenalty_append, rawPenalty, hcross]
  refine ⟨?_, ?_, rfl, ?_⟩
  · simp [score, scoreValue, aggregatePenalty, finalizeReport, hpen]
  · simp [score, scoreValue, aggregatePenalty, finalizeReport, hpen]
  · simp [finalizeReport]

/-! ## Task graph and scheduler -/

/-- Modelled from the spec: the discovered media kind of an artifact. -/
inductive MediaKind where
  | docSigned
  | docUnsigned
  | image
  | unknown
  deriving Repr, DecidableEq

/-- Modelled from the spec: the Pipeline Capability a Task is routed to;
`unsupported` is the no-op terminal capability for unknown/corrupt
formats. -/
inductive Capability where
  | cryptographic
  | structural
  | visual
  | unsupported
  deriving Repr, DecidableEq

/-- Modelled from the spec: a Task's status transitions strictly forward
from Pending through Running to Done or Failed. -/
inductive Status where
  | Pending
  | Running
  | Done
  | Failed
  deriving Repr, DecidableEq

/-- Modelled from the spec: a Task is a unit of work over one Artifact with
a unique id, a nullable parent id, a media kind, the routed capability and
a status. -/
structure Task where
  id : ℕ
  parent : Option ℕ
  kind : MediaKind
  capability : Capability
  status : Status
  deriving Repr, DecidableEq

/-- Modelled from the spec: the result of one Pipeline Capability call —
typed findings on success, or a failure reason on timeout / capability
error. -/
inductive CapOutcome where
  | success (findings : List Finding)
  | failure (reason : String)
  deriving Repr, DecidableEq

/-- Modelled from the spec: the "analysis-incomplete" Finding recorded when
a capability call times out or errors; it crosses its threshold so the
Verdict has explicitly lower confidence, and it records the failure
reason in its kind. -/
def analysisIncompleteFinding (reason : String) : Finding :=
  { kind := "analysis-incomplete: " ++ reason
    value := 1, threshold := 1, weight := 10, region := none }

/-- Modelled from the spec: executing one Task — on success the Task is
marked Done and its findings attached; on timeout or capability error the
Task is marked Failed, an "analysis-incomplete" Finding with the failure
reason is recorded, and the session continues. -/
def runTask (t : Task) : CapOutcome → Task × List Finding
  | .success fs => ({ t with status := .Done }, fs)
  | .failure reason => ({ t with status := .Failed }, [analysisIncompleteFinding reason])

/-- Modelled from the spec: all Findings accumulated across the session's
tasks under an assignment of capability outcomes. -/
def sessionFindings (tasks : List Task) (outcome : Task → CapOutcome) : List Finding :=
  (tasks.map (fun t => (runTask t (outcome t)).2)).flatten

/-- Modelled from the spec: running a session to finalization — every Task
is driven to a terminal status, the Findings that exist at finalization are
collected, and the Scoring Engine produces a Verdict from them (with the
reasoner result folded in); no single failure prevents Verdict
computation. -/
def runSession (tasks : List Task) (outcome : Task → CapOutcome)
    (narrative : Option String) : List Task × Verdict :=
  ((tasks.map (fun t => (runTask t (outcome t)).1)),
    score (finalizeReport (sessionFindings tasks outcome) narrative))

/-- C6: failure isolation — when one Task's capability call fails, that Task
is marked Failed with an "analysis-incomplete" Finding recording the reason,
every Task whose call succeeded is still marked Done, every Task ends in a
terminal status, and the Scoring Engine still produces a Verdict (score in
[0,100]) from the Findings existing at finalization. -/
theorem failed_task_never_aborts_session (tasks : List Task)
    (outcome : Task → CapOutcome) (narrative : Option String)
    (t : Task) (reason : String)
    (ht : t ∈ tasks) (hf : outcome t = .failure reason) :
    { t with status := .Failed } ∈ (runSession tasks outcome narrative).1
    ∧ analysisIncompleteFinding reason ∈ sessionFindings tasks outcome
    ∧ (∀ u ∈ tasks, ∀ fs, outcome u = .success fs →
        { u with status := .Done } ∈ (runSession tasks outcome narrative).1)
    ∧ (∀ u ∈ (runSession tasks outcome narrative).1,
        u.status = .Done ∨ u.status = .Failed)
    ∧ (runSession tasks outcome narrative).2
        = score (finalizeReport (sessionFindings tasks outcome) narrative)
    ∧ (runSession tasks outcome narrative).2.score ≤ 100 := by
  refine ⟨?_, ?_, ?_, ?_, rfl, scoreValue_le _⟩
  · exact List.mem_map.mpr ⟨t, ht, by simp [runTask, hf]⟩
  · refine List.mem_flatten.mpr ⟨[analysisIncompleteFinding reason], ?_, by simp⟩
    exact List.mem_map.mpr ⟨t, ht, by simp [runTask, hf]⟩
  · intro u hu fs hs
    exact List.mem_map.mpr ⟨u, hu, by simp [runTask, hs]⟩
  · intro u hu
    rcases List.mem_map.mp hu with ⟨v, _, hv⟩
    cases houtcome : outcome v <;> simp [runTask, houtcome] at hv <;> simp [← hv]

theorem failed_task_never_aborts_session_witness :
    (⟨1, none, .image, .visual, .Pending⟩ : Task)
        ∈ [(⟨1, none, .image, .visual, .Pending⟩ : Task)]
    ∧ analysisIncompleteFinding "timeout"
        ∈ sessionFindings [⟨1, none, .image, .visual, .Pending⟩]
            (fun _ => .failure "timeout") := by
  have h := failed_task_never_aborts_session
    [⟨1, none, .image, .visual, .Pending⟩] (fun _ => .failure "timeout") none
    ⟨1, none, .image, .visual, .Pending⟩ "timeout" (by simp) rfl
  exact ⟨by simp, h.2.1⟩

/-! ## Task graph builder: classification and routing -/

/-- Modelled from the spec: an immutable input artifact, abstracted to the
format features the classification rule inspects — whether it carries a
valid cryptographic signature structure, whether it is a PDF, and whether
it is a raster image (standalone or extracted). -/
structure Artifact where
  hasValidSignature : Bool
  isPdf : Bool
  isRasterImage : Bool
  deriving Repr, DecidableEq

/-- Modelled from the spec: classification of an artifact into its
MediaKind — document-with-signature, document-without-signature, image, or
unknown for unrecognised/corrupt formats. -/
def classifyArtifact (a : Artifact) : MediaKind :=
  if a.hasValidSignature then .docSigned
  else if a.isPdf then .docUnsigned
  else if a.isRasterImage then .image
  else .unknown

/-- Modelled from the spec: the routing rule — artifacts with a valid
cryptographic signature structure route to the Cryptographic Verifier, PDFs
without a valid signature to the Structural Inspector, raster images to the
Visual Inspector, and unknown formats to the no-op unsupported
capability. -/
def routeCapability : MediaKind → Capability
  | .docSigned => .cryptographic
  | .docUnsigned => .structural
  | .image => .visual
  | .unknown => .unsupported

/-- Modelled from the spec: `build(artifact)` produces the single root Task
of a new TaskGraph, routed by the classification rule; a Task whose
capability is unsupported is created directly in the terminal no-op Done
state, all other Tasks start Pending. -/
def build (a : Artifact) : Task :=
  let k := classifyArtifact a
  { id := 0, parent := none, kind := k, capability := routeCapability k
    status := if routeCapability k = .unsupported then .Done else .Pending }

/-- Modelled from the spec: the unsupported capability is a no-op — it
produces no findings and never fails. -/
def unsupportedOutcome : CapOutcome := .success []

theorem sessionFindings_append_noop (tasks : List Task) (t : Task)
    (outcome : Task → CapOutcome) (h : outcome t = unsupportedOutcome) :
    sessionFindings (tasks ++ [t]) outcome = sessionFindings tasks outcome := by
  simp [sessionFindings, runTask, h, unsupportedOutcome]

/-- C7: classification routing — a valid cryptographic signature structure
routes to the Cryptographic Verifier, a PDF without one to the Structural
Inspector, a raster image to the Visual Inspector; an unknown/corrupt
format yields a Task whose capability is unsupported, already in the
terminal no-op Done state, and adding such a Task to a session changes
neither the other Tasks' results nor the Verdict — it does not block the
rest of the graph. -/
theorem build_routes_by_classification (a : Artifact) :
    (a.hasValidSignature = true → (build a).capability = .cryptographic)
    ∧ (a.hasValidSignature = false → a.isPdf = true →
        (build a).capability = .structural)
    ∧ (a.hasValidSignature = false → a.isPdf = false → a.isRasterImage = true →
        (build a).capability = .visual)
    ∧ (a.hasValidSignature = false → a.isPdf = false → a.isRasterImage = false →
        (build a).capability = .unsupported
        ∧ (build a).status = .Done
        ∧ (∀ tasks outcome narrative, outcome (build a) = unsupportedOutcome →
            (runSession (tasks ++ [build a]) outcome narrative).1
              = (runSession tasks outcome narrative).1 ++ [{ build a with status := .Done }]
            ∧ (runSession (tasks ++ [build a]) outcome narrative).2
              = (runSession tasks outcome narrative).2)) := by
  refine ⟨?_, ?_, ?_, ?_⟩
  · intro h; simp [build, classifyArtifact, routeCapability, h]
  · intro h1 h2; simp [build, classifyArtifact, routeCapability, h1, h2]
  · intro h1 h2 h3; simp [build, classifyArtifact, routeCapability, h1, h2, h3]
  · intro h1 h2 h3
    refine ⟨by simp [build, classifyArtifact, routeCapability, h1, h2, h3],
      by simp [build, classifyArtifact, routeCapability, h1, h2, h3], ?_⟩
    intro tasks outcome narrative hout
    constructor
    · simp [runSession, runTask, hout, unsupportedOutcome]
    · simp [runSession, sessionFindings_append_noop tasks (build a) outcome hout]

theorem build_routes_by_classification_witness :
    (build ⟨true, true, false⟩).capability = .cryptographic
    ∧ (build ⟨false, true, false⟩).capability = .structural
    ∧ (build ⟨false, false, true⟩).capability = .visual
    ∧ (build ⟨false, false, false⟩).capability = .unsupported
    ∧ (build ⟨false, false, false⟩).status = .Done :=
  ⟨(build_routes_by_classification ⟨true, true, false⟩).1 rfl,
    (build_routes_by_classification ⟨false, true, false⟩).2.1 rfl rfl,
    (build_routes_by_classification ⟨false, false, true⟩).2.2.1 rfl rfl rfl,
    ((build_routes_by_classification ⟨false, false, false⟩).2.2.2 rfl rfl rfl).1,
    ((build_routes_by_classification ⟨false, false, false⟩).2.2.2 rfl rfl rfl).2.1⟩

/-! ## Frontend API client (`src/frontend/src/lib/api.ts`) -/

namespace Frontend

/-- A parsed JSON value as observed by `handleResponse`: the body text it
was parsed from (identity of the value) and the `detail` / `message`
fields when they are present as strings. -/
structure JsonValue where
  raw : String
  detail : Option String
  message : Option String
  deriving Repr, DecidableEq

/-- A received HTTP response: status flags and the raw body text delivered
by the network. The body is a one-shot stream: the first of
`response.json()` / `response.text()` to run consumes it, and any later
read rejects with a TypeError ("body stream already read"). -/
structure HttpResponse where
  ok : Bool
  status : ℕ
  body : String
  deriving Repr, DecidableEq

/-- The `APIError` object thrown by `handleResponse` for a non-ok
response whose body parses as JSON. -/
structure APIError where
  message : String
  status : ℕ
  deriving Repr, DecidableEq

/-- A rejection of `handleResponse`: the thrown `APIError`;
`parseRejected`, the rejection of `response.json()` on the ok path when
the body is not valid JSON; or `bodyConsumed`, the TypeError with which
the catch-branch `response.text()` rejects because `response.json()`
already consumed the body stream. -/
inductive FetchFailure where
  | api (e : APIError)
  | parseRejected
  | bodyConsumed
  deriving Repr, DecidableEq

/-- JavaScript `a || b` on an optional string field: an absent field and
the empty string are both falsy. -/
def jsOrString : Option String → String → String
  | some s, b => if s = "" then b else s
  | none, b => b

def defaultErrorMessage (status : ℕ) : String :=
  "HTTP error! status: " ++ toString status

/-- The error-message selection on the reachable error path of
`handleResponse`: `errorData.detail || errorData.message || errorMessage`
once the body has parsed as JSON. -/
def errorMessageOf (status : ℕ) (j : JsonValue) : String :=
  jsOrString j.detail (jsOrString j.message (defaultErrorMessage status))

/-- `handleResponse` from `api.ts`, with `jsonParse` the external
`JSON.parse` applied by `response.json()` (`none` on invalid JSON). On an
ok response it returns `response.json()`, which rejects when the body is
not valid JSON. On a non-ok response it runs `response.json()` inside
try/catch: on success it throws an `APIError` from the selected message
and the response status; on parse failure the catch branch runs
`await response.text()`, which rejects with a TypeError because the body
stream was already consumed by `response.json()`, so the raw-body-text and
default fallbacks of lines 16-17 are unreachable there and no `APIError`
is thrown. -/
def handleResponse (jsonParse : String → Option JsonValue)
    (r : HttpResponse) : Except FetchFailure JsonValue :=
  if r.ok then
    match jsonParse r.body with
    | some j => .ok j
    | none => .error .parseRejected
  else
    match jsonParse r.body with
    | some j => .error (.api ⟨errorMessageOf r.status j, r.status⟩)
    | none => .error .bodyConsumed

def API_BASE_URL : String := "/api"

/-- `api.get`: fetch `API_BASE_URL + endpoint` and feed the response to
`handleResponse`; the network is a function from URL to response. -/
def apiGet (jsonParse : String → Option JsonValue)
    (fetchFn : String → HttpResponse) (endpoint : String) :
    Except FetchFailure JsonValue :=
  handleResponse jsonParse (fetchFn (API_BASE_URL ++ endpoint))

/-- `api.post`: POST the request body (JSON or FormData) to
`API_BASE_URL + endpoint` and feed the response to `handleResponse`; the
network is a function from URL and request body to response. -/
def apiPost (jsonParse : String → Option JsonValue)
    (fetchFn : String → String → HttpResponse) (endpoint : String)
    (reqBody : String) : Except FetchFailure JsonValue :=
  handleResponse jsonParse (fetchFn (API_BASE_URL ++ endpoint) reqBody)

/-- `api.delete`: DELETE `API_BASE_URL + endpoint` and feed the response
to `handleResponse`. -/
def apiDelete (jsonParse : String → Option JsonValue)
    (fetchFn : String → HttpResponse) (endpoint : String) :
    Except FetchFailure JsonValue :=
  handleResponse jsonParse (fetchFn (API_BASE_URL ++ endpoint))

/-- A concrete `JSON.parse` for the counterexample and witness: one body
text that parses, everything else invalid. -/
def cexJsonParse : String → Option JsonValue := fun s =>
  if s = "good" then some ⟨"good", some "boom", none⟩ else none

/-- C8 counterexample: for an ok response whose body is not valid JSON
(e.g. an empty 204 body), `handleResponse` does not resolve —
`response.json()` rejects — refuting "resolves with the parsed JSON body
if and only if response.ok is true"; and for a non-ok response whose body
is not valid JSON, `handleResponse` rejects with the TypeError of the
catch-branch `response.text()` (the body stream was already read), not
with an `APIError` carrying the raw body text or the default message. -/
theorem handleResponse_ok_invalid_json_rejects :
    (⟨true, 204, ""⟩ : HttpResponse).ok = true
    ∧ handleResponse cexJsonParse ⟨true, 204, ""⟩ = .error .parseRejected
    ∧ handleResponse cexJsonParse ⟨false, 502, "Bad Gateway"⟩ = .error .bodyConsumed :=
  ⟨rfl, rfl, rfl⟩

/-- C8 (amended): `handleResponse` resolves with the parsed JSON body iff
the response is ok and its body parses as JSON, and it never resolves for
a non-ok response; for a non-ok response whose body parses as JSON it
throws an `APIError` whose status is the response's HTTP status and whose
message is the body's `detail` or `message` field, falling back to the
default "HTTP error! status: N"; for a non-ok response whose body is not
valid JSON the catch-branch `response.text()` rejects with a TypeError
(the body stream was already consumed by `response.json()`), so no
`APIError` and no raw-body-text fallback is produced there; and `api.get`,
`api.post` and `api.delete` all propagate this behaviour. -/
theorem handleResponse_spec (jsonParse : String → Option JsonValue)
    (r : HttpResponse) :
    ((∃ j, handleResponse jsonParse r = .ok j)
        ↔ (r.ok = true ∧ (jsonParse r.body).isSome))
    ∧ (r.ok = false → ∀ j, handleResponse jsonParse r ≠ .ok j)
    ∧ (r.ok = true → ∀ j, jsonParse r.body = some j →
        handleResponse jsonParse r = .ok j)
    ∧ (r.ok = false → ∀ j, jsonParse r.body = some j →
        handleResponse jsonParse r = .error (.api ⟨errorMessageOf r.status j, r.status⟩))
    ∧ (r.ok = false → ∀ j d, jsonParse r.body = some j → j.detail = some d → d ≠ "" →
        handleResponse jsonParse r = .error (.api ⟨d, r.status⟩))
    ∧ (r.ok = false → ∀ j, jsonParse r.body = some j → j.detail = none →
        j.message = none →
        handleResponse jsonParse r
          = .error (.api ⟨defaultErrorMessage r.status, r.status⟩))
    ∧ (r.ok = false → jsonParse r.body = none →
        handleResponse jsonParse r = .error .bodyConsumed)
    ∧ (∀ fetchFn endpoint,
        apiGet jsonParse fetchFn endpoint
          = handleResponse jsonParse (fetchFn (API_BASE_URL ++ endpoint)))
    ∧ (∀ fetchFn endpoint reqBody,
        apiPost jsonParse fetchFn endpoint reqBody
          = handleResponse jsonParse (fetchFn (API_BASE_URL ++ endpoint) reqBody))
    ∧ (∀ fetchFn endpoint,
        apiDelete jsonParse fetchFn endpoint
          = handleResponse jsonParse (fetchFn (API_BASE_URL ++ endpoint))) := by
  refine ⟨?_, ?_, ?_, ?_, ?_, ?_, ?_,
    fun _ _ => rfl, fun _ _ _ => rfl, fun _ _ => rfl⟩
  · constructor
    · rintro ⟨j, hj⟩
      cases hok : r.ok <;> cases hb : jsonParse r.body <;>
        simp [handleResponse, hok, hb] at hj ⊢
    · rintro ⟨hok, hb⟩
      rcases Option.isSome_iff_exists.mp hb with ⟨j, hj⟩
      exact ⟨j, by simp [handleResponse, hok, hj]⟩
  · intro hok j
    cases hb : jsonParse r.body <;> simp [handleResponse, hok, hb]
  · intro hok j hj
    simp [handleResponse, hok, hj]
  · intro hok j hj
    simp [handleResponse, hok, hj]
  · intro hok j d hj hd hne
    simp [handleResponse, hok, hj, errorMessageOf, jsOrString, hd, hne]
  · intro hok j hj hd hm
    simp [handleResponse, hok, hj, errorMessageOf, jsOrString, hd, hm]
  · intro hok hb
    simp [handleResponse, hok, hb]

theorem handleResponse_spec_witness :
    handleResponse cexJsonParse ⟨false, 500, "good"⟩ = .error (.api ⟨"boom", 500⟩)
    ∧ handleResponse cexJsonParse ⟨true, 200, "good"⟩ = .ok ⟨"good", some "boom", none⟩
    ∧ handleResponse cexJsonParse ⟨false, 404, "nope"⟩ = .error .bodyConsumed := by
  refine ⟨?_, ?_, ?_⟩
  · exact (handleResponse_spec cexJsonParse ⟨false, 500, "good"⟩).2.2.2.2.1
      rfl ⟨"good", some "boom", none⟩ "boom" rfl rfl (by decide)
  · exact (handleResponse_spec cexJsonParse ⟨true, 200, "good"⟩).2.2.1
      rfl ⟨"good", some "boom", none⟩ rfl
  · exact (handleResponse_spec cexJsonParse ⟨false, 404, "nope"⟩).2.2.2.2.2.2.1
      rfl rfl

/-! ## Upload guard (`src/frontend/src/components/PolicyUploader.tsx`) -/

/-- A browser `File` as inspected by the upload handler: its name and MIME
type (the `type` property). -/
structure UFile where
  name : String
  mimeType : String
  deriving Repr, DecidableEq

/-- The component state touched by `handleFileUpload`. -/
structure UploaderState where
  uploadError : Option String
  deriving Repr, DecidableEq

/-- `handleFileUpload` from `PolicyUploader.tsx` (and identically in the
`PolicyManager` variant): when the file's MIME type is not exactly
`application/pdf`, set the error message and return without starting the
upload mutation; otherwise clear the error and hand the file to
`mutation.mutate`. The second component is the file passed to the
mutation, `none` when no mutation starts. -/
def handleFileUpload (file : UFile) (s : UploaderState) :
    UploaderState × Option UFile :=
  if file.mimeType ≠ "application/pdf" then
    ({ s with uploadError := some "Only PDF files are accepted." }, none)
  else
    ({ s with uploadError := none }, some file)

/-- The network requests issued by the upload mutation: one POST to
`/policy/upload` per file handed to it, none otherwise. -/
def uploadRequests : Option UFile → List (String × UFile)
  | none => []
  | some f => [("/policy/upload", f)]

/-- C9: for every file whose MIME type is not exactly `application/pdf`,
`handleFileUpload` sets the error message "Only PDF files are accepted."
and returns without starting the upload mutation, so no request to
`/policy/upload` is issued; only files of MIME type `application/pdf` are
ever submitted. -/
theorem upload_guard_rejects_non_pdf (file : UFile) (s : UploaderState) :
    (file.mimeType ≠ "application/pdf" →
      (handleFileUpload file s).1.uploadError = some "Only PDF files are accepted."
      ∧ (handleFileUpload file s).2 = none
      ∧ uploadRequests (handleFileUpload file s).2 = [])
    ∧ (∀ g, (handleFileUpload file s).2 = some g →
        g.mimeType = "application/pdf" ∧ g = file) := by
  constructor
  · intro hne
    simp [handleFileUpload, hne, uploadRequests]
  · intro g hg
    by_cases h : file.mimeType = "application/pdf"
    · simp [handleFileUpload, h] at hg
      exact ⟨hg ▸ h, hg.symm⟩
    · simp [handleFileUpload, h] at hg

theorem upload_guard_rejects_non_pdf_witness :
    (handleFileUpload ⟨"notes.txt", "text/plain"⟩ ⟨none⟩).1.uploadError
        = some "Only PDF files are accepted."
    ∧ (handleFileUpload ⟨"notes.txt", "text/plain"⟩ ⟨none⟩).2 = none
    ∧ uploadRequests (handleFileUpload ⟨"notes.txt", "text/plain"⟩ ⟨none⟩).2 = [] :=
  (upload_guard_rejects_non_pdf ⟨"notes.txt", "text/plain"⟩ ⟨none⟩).1 (by decide)

/-! ## Audit log (`src/frontend/src/components/ViolationDrillDown.tsx`) -/

/-- An audit entry as stored in localStorage. -/
structure AuditEntry where
  id : String
  rule_id : String
  description : String
  action : String
  reviewer : String
  timestamp : String
  record_preview : String
  deriving Repr, DecidableEq

def AUDIT_KEY : String := "entropyshield_audit_log"

/-- `loadAuditLog`: read the value stored under the audit key
(`localStorage.getItem` yields `none` when absent; JavaScript `||` also
treats the empty string as falsy, substituting the literal `"[]"`), then
`JSON.parse` inside try/catch — any parse failure yields the empty list.
`jsonParse` is the external `JSON.parse` specialised to entry lists,
returning `none` on failure. -/
def loadAuditLog (jsonParse : String → Option (List AuditEntry))
    (stored : Option String) : List AuditEntry :=
  let raw := match stored with
    | none => "[]"
    | some s => if s = "" then "[]" else s
  (jsonParse raw).getD []

/-- `saveAuditEntry`: load the current log, prepend the new entry, keep at
most the first 100 entries, and store the `JSON.stringify` of the result
under the audit key; returns the new stored value. -/
def saveAuditEntry (jsonParse : String → Option (List AuditEntry))
    (jsonStringify : List AuditEntry → String)
    (entry : AuditEntry) (stored : Option String) : Option String :=
  let log := loadAuditLog jsonParse stored
  some (jsonStringify ((entry :: log).take 100))

/-- C10: after every `saveAuditEntry`, the audit log persisted under the
audit key holds at most 100 entries with the newly saved entry first, and
`loadAuditLog` returns the empty list whenever the stored value is absent
or unparseable. The hypotheses record the relied-upon behaviour of the
external `JSON.parse`/`JSON.stringify` pair: `"[]"` parses to the empty
list, stringified lists are nonempty strings, and parse inverts stringify
on the saved list. -/
theorem audit_log_invariant (jsonParse : String → Option (List AuditEntry))
    (jsonStringify : List AuditEntry → String)
    (entry : AuditEntry) (stored : Option String)
    (hEmpty : jsonParse "[]" = some [])
    (hNE : jsonStringify ((entry :: loadAuditLog jsonParse stored).take 100) ≠ "")
    (hRound : jsonParse (jsonStringify ((entry :: loadAuditLog jsonParse stored).take 100))
        = some ((entry :: loadAuditLog jsonParse stored).take 100)) :
    (loadAuditLog jsonParse (saveAuditEntry jsonParse jsonStringify entry stored)).length ≤ 100
    ∧ (loadAuditLog jsonParse (saveAuditEntry jsonParse jsonStringify entry stored)).head?
        = some entry
    ∧ loadAuditLog jsonParse none = []
    ∧ (∀ s, jsonParse s = none → loadAuditLog jsonParse (some s) = []) := by
  have hsave : saveAuditEntry jsonParse jsonStringify entry stored
      = some (jsonStringify ((entry :: loadAuditLog jsonParse stored).take 100)) := rfl
  have hafter :
      loadAuditLog jsonParse (saveAuditEntry jsonParse jsonStringify entry stored)
        = (entry :: loadAuditLog jsonParse stored).take 100 := by
    rw [hsave]
    show (jsonParse
        (if jsonStringify ((entry :: loadAuditLog jsonParse stored).take 100) = ""
          then "[]"
          else jsonStringify ((entry :: loadAuditLog jsonParse stored).take 100))).getD []
      = (entry :: loadAuditLog jsonParse stored).take 100
    rw [if_neg hNE, hRound]
    rfl
  refine ⟨?_, ?_, ?_, ?_⟩
  · rw [hafter]
    exact List.length_take_le 100 (entry :: loadAuditLog jsonParse stored)
  · rw [hafter]
    rfl
  · simp [loadAuditLog, hEmpty]
  · intro s hs
    by_cases h : s = ""
    · simp [loadAuditLog, h, hEmpty]
    · simp [loadAuditLog, h, hs]

/-- A concrete parse/stringify pair for the witness: one stored encoding
for the single saved log it exercises. -/
def witnessEntry : AuditEntry :=
  ⟨"R-1-0", "R-1", "laundering pattern", "APPROVED", "compliance officer", "t0", "row"⟩

def witnessStringify : List AuditEntry → String := fun _ => "enc"

def witnessParse : String → Option (List AuditEntry) := fun s =>
  if s = "[]" then some []
  else if s = "enc" then some [witnessEntry]
  else none

theorem audit_log_invariant_witness :
    (loadAuditLog witnessParse
        (saveAuditEntry witnessParse witnessStringify witnessEntry none)).length ≤ 100
    ∧ (loadAuditLog witnessParse
        (saveAuditEntry witnessParse witnessStringify witnessEntry none)).head?
        = some witnessEntry
    ∧ loadAuditLog witnessParse none = []
    ∧ (∀ s, witnessParse s = none → loadAuditLog witnessParse (some s) = []) :=
  audit_log_invariant witnessParse witnessStringify witnessEntry none
    (by decide) (by decide) (by decide)

end Frontend

end EntropyShield
